import Mathlib

set_option linter.unnecessarySimpa false

/-!
Verification of the execution-engine shell and secure trie of the
`ethereumjs-monorepo` sources against their natural-language specification.

Two source files are embedded:

* `SecureTrie` (trie package): `get` / `put` / `del` over an underlying
  checkpoint trie, with automatic keccak256 hashing of keys.
* `VM` (vm package): constructor option validation, one-shot `init`
  (genesis materialization, precompile priming), and `copy`.

The underlying plain trie, the state manager, `Common`, and the crypto
primitives are external collaborators of this code; where a claim depends
on them they are modelled from the spec (marked in doc comments).
-/

namespace EthVM

/-- Byte strings (JS `Buffer`) as lists of byte values. -/
abbrev Bytes := List Nat

/-! ## Base trie, modelled from the spec

`SecureTrie extends CheckpointTrie`; the underlying `CheckpointTrie`
(`super.get` / `super.put` / `super.del`) is not part of the given source.
-/

/-- Modelled from the spec: the underlying (non-secure) trie that
`SecureTrie` inherits `super.get` / `super.put` / `super.del` from.
The spec describes it as a key/value store whose Merkle root is a function
of the stored mapping, with the invariant that deleting an absent key is a
no-op for the root. We model its contents as an association list of
(key, value) pairs, kept duplicate-free by construction. -/
abbrev BaseTrie := List (Bytes × Bytes)

/-- Modelled from the spec: lookup in the underlying trie (`super.get`);
returns the stored value or `none`. -/
def baseGet (t : BaseTrie) (k : Bytes) : Option Bytes :=
  (t.find? (fun p => p.1 = k)).map (fun p => p.2)

/-- Modelled from the spec: deletion in the underlying trie (`super.del`);
removes any entry for `k`. On an absent key this leaves the stored mapping
(and hence the root) unchanged. -/
def baseDel (t : BaseTrie) (k : Bytes) : BaseTrie :=
  t.filter (fun p => ¬ p.1 = k)

/-- Modelled from the spec: insertion in the underlying trie (`super.put`);
stores `v` at `k`, replacing any previous entry. -/
def basePut (t : BaseTrie) (k : Bytes) (v : Bytes) : BaseTrie :=
  (k, v) :: baseDel t k

/-- The trie root is determined by the stored key/value mapping; we model
it as that mapping (the Merkle root of the underlying trie is injective in
the mapping it commits to). -/
def trieRoot (t : BaseTrie) : Bytes → Option Bytes :=
  fun k => baseGet t k

/-! ## SecureTrie (from the source)

The secure trie hashes every key with keccak256 before delegating to the
underlying trie. keccak256 itself is external crypto; all definitions are
parametric in the hash function `h`.
-/

/-- Source `SecureTrie.get`: `const hash = keccak256(key); return super.get(hash)`. -/
def secureGet (h : Bytes → Bytes) (t : BaseTrie) (key : Bytes) : Option Bytes :=
  baseGet t (h key)

/-- Source `SecureTrie.del`: `const hash = keccak256(key); await super.del(hash)`. -/
def secureDel (h : Bytes → Bytes) (t : BaseTrie) (key : Bytes) : BaseTrie :=
  baseDel t (h key)

/-- The JS value passed as `val` to `SecureTrie.put`: either an actual
`Buffer` or a falsy non-Buffer (`null` / `undefined`), modelled as `none`. -/
abbrev JSBuf := Option Bytes

/-- Function `isFalsy` from `@ethereumjs/util`: true exactly for the falsy JS values
(`null`, `undefined`, `false`, `0`, `0n`, the empty string). A `Buffer`
object is never falsy, whatever its contents. -/
def isFalsy : JSBuf → Bool
  | none => true
  | some _ => false

/-- Test `val.toString() === ''` for a `Buffer`: UTF-8 decoding yields the empty
string exactly when the buffer has no bytes (every byte of a non-empty
buffer decodes to at least one character, malformed bytes included). For a
falsy `val` this subterm is never evaluated, since `||` short-circuits. -/
def toStringIsEmpty : JSBuf → Bool
  | none => false
  | some b => b.isEmpty

/-- Source `SecureTrie.put`:
`if (isFalsy(val) || val.toString() === '') { await this.del(key) }
 else { const hash = keccak256(key); await super.put(hash, val) }`. -/
def securePut (h : Bytes → Bytes) (t : BaseTrie) (key : Bytes) (val : JSBuf) :
    BaseTrie :=
  if isFalsy val || toStringIsEmpty val then
    secureDel h t key
  else
    basePut t (h key) (val.getD [])

/-! ### Helper lemmas about the base trie -/

theorem baseGet_baseDel_self (t : BaseTrie) (k : Bytes) :
    baseGet (baseDel t k) k = none := by
  unfold baseGet baseDel
  induction t with
  | nil => rfl
  | cons p rest ih =>
    by_cases hpk : p.1 = k
    · simpa [List.filter, hpk] using ih
    · simpa [List.filter, List.find?, hpk] using ih

theorem baseDel_absent (t : BaseTrie) (k : Bytes) (habs : baseGet t k = none) :
    baseDel t k = t := by
  unfold baseGet at habs
  unfold baseDel
  induction t with
  | nil => rfl
  | cons p rest ih =>
    by_cases hpk : p.1 = k
    · exfalso
      simp [List.find?, hpk] at habs
    · simp only [List.find?, hpk] at habs
      have hrest : List.filter (fun p => decide ¬p.1 = k) rest = rest :=
        ih (by simpa [hpk] using habs)
      simp only [decide_not] at hrest
      simp [List.filter, hpk, hrest]

/-- C1: storing an empty or falsy value in the secure trie is a deletion:
`SecureTrie.put key v` with `v` empty or falsy equals `SecureTrie.del key`,
a subsequent `SecureTrie.get key` returns `null`, and putting an empty
value at a key that was never set leaves the trie root unchanged. -/
theorem secure_put_empty_is_del (h : Bytes → Bytes) (t : BaseTrie) (key : Bytes)
    (v : JSBuf) (hv : (isFalsy v || toStringIsEmpty v) = true) :
    securePut h t key v = secureDel h t key ∧
    secureGet h (securePut h t key v) key = none ∧
    (secureGet h t key = none →
      trieRoot (securePut h t key v) = trieRoot t) := by
  have hput : securePut h t key v = secureDel h t key := by
    unfold securePut
    rw [hv]
    simp
  refine ⟨hput, ?_, ?_⟩
  · rw [hput]
    exact baseGet_baseDel_self t (h key)
  · intro habs
    rw [hput]
    unfold secureDel trieRoot
    rw [baseDel_absent t (h key) habs]

/-- Witness for C1 at a concrete hash, trie, key and value. -/
theorem secure_put_empty_is_del_witness :
    securePut (fun b => 0 :: b) [([0, 1], [5])] [2] (some []) =
      secureDel (fun b => 0 :: b) [([0, 1], [5])] [2] ∧
    secureGet (fun b => 0 :: b)
      (securePut (fun b => 0 :: b) [([0, 1], [5])] [2] (some [])) [2] = none ∧
    (secureGet (fun b => 0 :: b) [([0, 1], [5])] [2] = none →
      trieRoot (securePut (fun b => 0 :: b) [([0, 1], [5])] [2] (some [])) =
        trieRoot [([0, 1], [5])]) :=
  secure_put_empty_is_del (fun b => 0 :: b) [([0, 1], [5])] [2] (some [])
    (by decide)

/-! ## Accounts and the state store

The `VM` engine shell (packages/vm/src/index.ts) drives a state store
through the spec §4.2 contract. `Account`, `Account.isEmpty`,
`Account.fromAccountData` come from `ethereumjs-util`; the store itself is
`DefaultStateManager`. Both are external collaborators.
-/

/-- Account addresses (20-byte), as byte lists. -/
abbrev Addr := Bytes

/-- keccak256 of the empty byte string (`KECCAK256_NULL`): the code hash of
an account without code. -/
def KECCAK256_NULL : Bytes :=
  [0xc5, 0xd2, 0x46, 0x01, 0x86, 0xf7, 0x23, 0x3c,
   0x92, 0x7e, 0x7d, 0xb2, 0xdc, 0xc7, 0x03, 0xc0,
   0xe5, 0x00, 0xb6, 0x53, 0xca, 0x82, 0x27, 0x3b,
   0x7b, 0xfa, 0xd8, 0x04, 0x5d, 0x85, 0xa4, 0x70]

/-- keccak256 of the RLP of the empty byte string (`KECCAK256_RLP`): the
storage root of an account with empty storage. -/
def KECCAK256_RLP : Bytes :=
  [0x56, 0xe8, 0x1f, 0x17, 0x1b, 0xcc, 0x55, 0xa6,
   0xff, 0x83, 0x45, 0xe6, 0x92, 0xc0, 0xf8, 0x6e,
   0x5b, 0x48, 0xe0, 0x1b, 0x99, 0x6c, 0xad, 0xc0,
   0x01, 0x62, 0x2f, 0xb5, 0xe3, 0x63, 0xb4, 0x21]

/-- An account of the state store (`Account` from `ethereumjs-util`):
nonce, balance, code hash and storage root. -/
structure Account where
  nonce : Nat
  balance : Nat
  codeHash : Bytes
  stateRoot : Bytes
  deriving DecidableEq, Repr

/-- Predicate `Account.isEmpty`: balance zero, nonce zero and the empty code hash
(the storage root takes no part in emptiness). -/
def Account.isEmpty (a : Account) : Bool :=
  a.balance = 0 && a.nonce = 0 && a.codeHash = KECCAK256_NULL

/-- The account synthesised by `getAccount` on a miss (spec §4.2: empty
account synthesised on miss): all defaults. -/
def emptyAccount : Account :=
  { nonce := 0, balance := 0, codeHash := KECCAK256_NULL,
    stateRoot := KECCAK256_RLP }

/-- Constructor `Account.fromAccountData` as instantiated at the priming site of
`VM.init`: balance 1, the given storage root, and the default nonce 0 and
empty code hash. -/
def Account.fromAccountData (stateRoot : Bytes) : Account :=
  { nonce := 0, balance := 1, codeHash := KECCAK256_NULL,
    stateRoot := stateRoot }

/-- Modelled from the spec: the state store behind `this.eei.state`
(`DefaultStateManager`, external to the given source). §4.2 gives its
contract: current accounts plus a LIFO of checkpoints; `checkpoint` pushes
a snapshot, `commit` folds the top frame into its parent, `revert`
restores the snapshot. -/
structure StateManager where
  accounts : List (Addr × Account)
  checkpoints : List (List (Addr × Account))
  deriving DecidableEq

/-- Operation `getAccount`: look the address up, synthesising an empty account on a
miss (spec §4.2). -/
def StateManager.getAccount (s : StateManager) (a : Addr) : Account :=
  ((s.accounts.find? (fun p => p.1 = a)).map (fun p => p.2)).getD emptyAccount

/-- Operation `putAccount`: store the account under the address, replacing any
previous entry. -/
def StateManager.putAccount (s : StateManager) (a : Addr) (acct : Account) :
    StateManager :=
  { s with accounts := (a, acct) :: s.accounts.filter (fun p => ¬ p.1 = a) }

/-- Operation `checkpoint`: push a snapshot of the current accounts. -/
def StateManager.checkpoint (s : StateManager) : StateManager :=
  { s with checkpoints := s.accounts :: s.checkpoints }

/-- Operation `commit`: drop the topmost snapshot, keeping the mutations made since
the matching `checkpoint`. -/
def StateManager.commit (s : StateManager) : StateManager :=
  { s with checkpoints := s.checkpoints.tail }

/-- Operation `revert`: restore the topmost snapshot. -/
def StateManager.revert (s : StateManager) : StateManager :=
  { accounts := s.checkpoints.headD s.accounts,
    checkpoints := s.checkpoints.tail }

/-- Modelled from the spec: `DefaultStateManager.copy` (external), a clone
of the store with the same contents and current roots; in this value-level
model a clone is the value itself. -/
def StateManager.copy (s : StateManager) : StateManager := s

/-! ### State store lemmas -/

theorem find?_and_right (l : List (Addr × Account)) (a b : Addr)
    (hne : ¬ a = b) :
    List.find? (fun x => !decide (x.1 = b) && decide (x.1 = a)) l =
      List.find? (fun p => p.1 = a) l := by
  have hfun : (fun (x : Addr × Account) => !decide (x.1 = b) && decide (x.1 = a)) =
      (fun p => decide (p.1 = a)) := by
    funext x
    by_cases hx : x.1 = a
    · have hxb : ¬ x.1 = b := fun h => hne (by rw [← hx, h])
      simp only [hx, hxb]
      simp [hne]
    · simp [hx]
  rw [hfun]

theorem getAccount_putAccount_self (s : StateManager) (a : Addr)
    (acct : Account) :
    (s.putAccount a acct).getAccount a = acct := by
  unfold StateManager.putAccount StateManager.getAccount
  simp [List.find?]

theorem getAccount_putAccount_other (s : StateManager) (a b : Addr)
    (acct : Account) (hne : ¬ a = b) :
    (s.putAccount b acct).getAccount a = s.getAccount a := by
  have hba : ¬ b = a := fun h => hne h.symm
  unfold StateManager.putAccount StateManager.getAccount
  simp [List.find?, hba]
  rw [find?_and_right s.accounts a b hne]

theorem getAccount_checkpoint (s : StateManager) (a : Addr) :
    s.checkpoint.getAccount a = s.getAccount a := rfl

theorem getAccount_commit (s : StateManager) (a : Addr) :
    s.commit.getAccount a = s.getAccount a := rfl

/-! ## Chain parameters, block store, options and errors -/

/-- The rule-set version tags of the external `Common` package (its
`Hardfork` enum). Beyond the fifteen tags the VM declares support for,
the enum carries further tags (`grayGlacier`, `shanghai`), modelled from
the spec so that the support check is not vacuous. -/
inductive Hardfork where
  | chainstart
  | homestead
  | dao
  | tangerineWhistle
  | spuriousDragon
  | byzantium
  | constantinople
  | petersburg
  | istanbul
  | muirGlacier
  | berlin
  | london
  | arrowGlacier
  | mergeForkIdTransition
  | merge
  | grayGlacier
  | shanghai
  deriving DecidableEq, Repr

/-- Modelled from the spec: the chain-parameter oracle (`Common`,
external): the active protocol amendments (EIP numbers) and the configured
rule-set version tag. -/
structure Common where
  eips : List Nat
  hardfork : Hardfork
  deriving DecidableEq, Repr

/-- Operation `Common.copy` (external): a clone with the same chain parameters; in
this value-level model a clone is the value itself. -/
def Common.copy (c : Common) : Common := c

/-- Default chain setup when no `Common` instance is supplied — the
constructor builds `new Common` with chain mainnet, which carries the
london hardfork and no extra EIPs (per the `VMOpts.common` doc comment in
the source). -/
def defaultCommon : Common :=
  { eips := [], hardfork := Hardfork.london }

/-- Modelled from the spec: the durable block store (`Blockchain`,
external): whether its one-shot `_init` has run, and its stored contents,
modelled coarsely as a list of numbered entries. -/
structure Blockchain where
  inited : Bool
  store : List (Nat × Bytes)
  deriving DecidableEq, Repr

/-- Operation `Blockchain.copy` (external): a clone of the block store with the same
contents; in this value-level model a clone is the value itself. -/
def Blockchain.copy (b : Blockchain) : Blockchain := b

/-- Operation `blockchain._init()` (external): one-shot initialization of the block
store; it does not change the stored blocks. -/
def Blockchain.initStore (b : Blockchain) : Blockchain :=
  { b with inited := true }

/-- The options record accepted by the `VM` constructor (`VMOpts`), plus
the removed legacy keys `chain` and `hardfork` that a caller may still
place on the record; `none` models an absent (or `undefined`) key. -/
structure VMOpts where
  chain : Option Nat
  hardfork : Option Nat
  common : Option Common
  stateManager : Option StateManager
  blockchain : Option Blockchain
  activatePrecompiles : Option Bool
  activateGenesisState : Option Bool
  hardforkByBlockNumber : Option Bool
  hardforkByTD : Option Nat
  deriving DecidableEq

/-- The distinguishable errors thrown by the `VM` constructor, in the
spec taxonomy (§7); each corresponds to one `throw new Error(...)` site. -/
inductive VMError where
  | legacyOptionRejected
  | unsupportedEIP (eip : Nat)
  | unsupportedRuleSet (hf : Hardfork)
  | conflictingHardforkSelectors
  deriving DecidableEq, Repr

/-- The `supportedEIPs` list of the constructor. -/
def supportedEIPs : List Nat :=
  [1153, 1559, 2315, 2537, 2565, 2718, 2929, 2930, 3074, 3198, 3529, 3540,
   3541, 3607, 3651, 3670, 3855, 3860, 4399]

/-- The `supportedHardforks` list of the constructor. -/
def supportedHardforks : List Hardfork :=
  [Hardfork.chainstart, Hardfork.homestead, Hardfork.dao,
   Hardfork.tangerineWhistle, Hardfork.spuriousDragon, Hardfork.byzantium,
   Hardfork.constantinople, Hardfork.petersburg, Hardfork.istanbul,
   Hardfork.muirGlacier, Hardfork.berlin, Hardfork.london,
   Hardfork.arrowGlacier, Hardfork.mergeForkIdTransition, Hardfork.merge]

/-- The first EIP of the supplied `Common` that the constructor loop
rejects, if any. -/
def findUnsupportedEIP (eips : List Nat) : Option Nat :=
  eips.find? (fun e => ¬ e ∈ supportedEIPs)

/-- The engine instance built by a successful construction. -/
structure VM where
  opts : VMOpts
  common : Common
  stateManager : StateManager
  blockchain : Blockchain
  hardforkByBlockNumber : Bool
  hardforkByTD : Option Nat
  isInitialized : Bool
  deriving DecidableEq

/-- The `VM` constructor (`protected constructor(opts)`); check by check
in source order: the removed legacy `chain` / `hardfork` keys, the EIPs of
a supplied `Common`, the resolved hardfork against `supportedHardforks`,
then the mutual exclusion of the two hardfork selectors; on success the
engine record, with `_isInitialized = false`. -/
def vmConstructor (opts : VMOpts) : Except VMError VM :=
  if opts.chain.isSome || opts.hardfork.isSome then
    Except.error VMError.legacyOptionRejected
  else
    match (match opts.common with
           | some c => findUnsupportedEIP c.eips
           | none => none) with
    | some e => Except.error (VMError.unsupportedEIP e)
    | none =>
      if (opts.common.getD defaultCommon).hardfork ∈ supportedHardforks then
        if opts.hardforkByBlockNumber.isSome && opts.hardforkByTD.isSome then
          Except.error VMError.conflictingHardforkSelectors
        else
          Except.ok
            { opts := opts
              common := opts.common.getD defaultCommon
              stateManager :=
                opts.stateManager.getD { accounts := [], checkpoints := [] }
              blockchain :=
                opts.blockchain.getD { inited := false, store := [] }
              hardforkByBlockNumber := opts.hardforkByBlockNumber.getD false
              hardforkByTD := opts.hardforkByTD
              isInitialized := false }
      else
        Except.error
          (VMError.unsupportedRuleSet (opts.common.getD defaultCommon).hardfork)

/-- Modelled from the spec: `generateCanonicalGenesis` (external) writes
the genesis accounts `g` of the chain parameters into the state store. -/
def generateCanonicalGenesis (g : List (Addr × Account)) (s : StateManager) :
    StateManager :=
  g.foldl (fun s p => s.putAccount p.1 p.2) s

/-- One iteration of the priming loop of `VM.init`: fetch the account of a
precompile address and, only when it is empty, store an account with
balance 1 and the prior storage root. -/
def primePrecompile (s : StateManager) (a : Addr) : StateManager :=
  if (s.getAccount a).isEmpty then
    s.putAccount a (Account.fromAccountData (s.getAccount a).stateRoot)
  else
    s

/-- The `activatePrecompiles` branch of `VM.init`: one checkpoint, the
priming loop over the active precompile addresses, one commit. -/
def activatePrecompilesOnState (precompiles : List Addr) (s : StateManager) :
    StateManager :=
  (precompiles.foldl primePrecompile s.checkpoint).commit

/-- Method `VM.init`: a no-op when `_isInitialized`; otherwise initialize the
block store, materialize genesis when asked for and no external state
store was supplied, prime the precompile accounts when asked for and no
external state store was supplied, and set `_isInitialized`. The external
collaborators — the genesis account list `g` (from `Common`) and the
active precompile address list `precompiles` (`getActivePrecompiles`) —
are passed as parameters. -/
def vmInit (g : List (Addr × Account)) (precompiles : List Addr) (v : VM) :
    VM :=
  if v.isInitialized then v
  else
    let v1 : VM := { v with blockchain := v.blockchain.initStore }
    let v2 : VM :=
      if v1.opts.stateManager.isNone && v1.opts.activateGenesisState.getD false
      then { v1 with stateManager := generateCanonicalGenesis g v1.stateManager }
      else v1
    let v3 : VM :=
      if v2.opts.activatePrecompiles.getD false && v2.opts.stateManager.isNone
      then { v2 with
              stateManager := activatePrecompilesOnState precompiles v2.stateManager }
      else v2
    { v3 with isInitialized := true }

/-- Method `VM.create`: run the constructor, then `init`. -/
def vmCreate (g : List (Addr × Account)) (precompiles : List Addr)
    (opts : VMOpts) : Except VMError VM :=
  (vmConstructor opts).map (vmInit g precompiles)

/-- The options record `VM.copy` passes to `VM.create`: clones of the
state store, block store and chain parameters, nothing else. -/
def copyOpts (v : VM) : VMOpts :=
  { chain := none
    hardfork := none
    common := some v.common.copy
    stateManager := some v.stateManager.copy
    blockchain := some v.blockchain.copy
    activatePrecompiles := none
    activateGenesisState := none
    hardforkByBlockNumber := none
    hardforkByTD := none }

/-- Method `VM.copy`: `VM.create` over clones of the three stores. -/
def vmCopy (g : List (Addr × Account)) (precompiles : List Addr) (v : VM) :
    Except VMError VM :=
  vmCreate g precompiles (copyOpts v)

/-! ## Engine lifecycle lemmas -/

theorem vmInit_isInitialized (g : List (Addr × Account)) (p : List Addr)
    (v : VM) : (vmInit g p v).isInitialized = true := by
  unfold vmInit
  by_cases h : v.isInitialized
  · simp [h]
  · simp [h]

theorem vmInit_of_initialized (g : List (Addr × Account)) (p : List Addr)
    (v : VM) (h : v.isInitialized = true) : vmInit g p v = v := by
  unfold vmInit
  simp [h]

/-- C2: engine initialization is idempotent: once `init` has completed on
an engine, a further `init` — even against different external genesis data
or precompile lists — performs no mutation at all and returns successfully,
so `init(); init()` leaves the same state as a single `init()`. -/
theorem init_idempotent (g g2 : List (Addr × Account)) (p p2 : List Addr)
    (v : VM) :
    vmInit g2 p2 (vmInit g p v) = vmInit g p v :=
  vmInit_of_initialized g2 p2 (vmInit g p v) (vmInit_isInitialized g p v)

/-- C3: supplying an external state store disables both optional
initialization steps: whenever the options record carries a
`stateManager`, `init` leaves the state store untouched — neither genesis
materialization nor precompile priming runs — whatever the values of
`activateGenesisState` and `activatePrecompiles`. -/
theorem external_state_store_disables_optional_init
    (g : List (Addr × Account)) (p : List Addr) (v : VM)
    (h : v.opts.stateManager.isSome = true) :
    (vmInit g p v).stateManager = v.stateManager := by
  obtain ⟨sm, hsm⟩ := Option.isSome_iff_exists.mp h
  unfold vmInit
  by_cases hi : v.isInitialized
  · simp [hi]
  · simp [hi, hsm]

/-- A sample external state store for the witnesses. -/
def sampleStore : StateManager :=
  { accounts :=
      [([1], { nonce := 0, balance := 7, codeHash := KECCAK256_NULL,
               stateRoot := KECCAK256_RLP })]
    checkpoints := [] }

/-- A sample options record carrying an external state store together with
both activation flags set. -/
def sampleOptsExternal : VMOpts :=
  { chain := none
    hardfork := none
    common := none
    stateManager := some sampleStore
    blockchain := none
    activatePrecompiles := some true
    activateGenesisState := some true
    hardforkByBlockNumber := none
    hardforkByTD := none }

/-- A sample engine built over `sampleOptsExternal`, before `init`. -/
def sampleVMExternal : VM :=
  { opts := sampleOptsExternal
    common := defaultCommon
    stateManager := sampleStore
    blockchain := { inited := false, store := [] }
    hardforkByBlockNumber := false
    hardforkByTD := none
    isInitialized := false }

/-- Witness for C3: on `sampleVMExternal`, whose options set both
`activateGenesisState` and `activatePrecompiles`, `init` leaves the state
store untouched. -/
theorem external_state_store_disables_optional_init_witness :
    (vmInit [([2], Account.fromAccountData KECCAK256_RLP)] [[3]]
      sampleVMExternal).stateManager = sampleVMExternal.stateManager :=
  external_state_store_disables_optional_init
    [([2], Account.fromAccountData KECCAK256_RLP)] [[3]] sampleVMExternal
    (by decide)

/-- C8: the constructor rejects the removed legacy option keys: any record
carrying a `chain` or `hardfork` key is rejected with the legacy-option
error before any other option is processed — whatever the rest of the
record holds — and no engine instance is produced. -/
theorem legacy_option_rejected (opts : VMOpts)
    (h : opts.chain.isSome = true ∨ opts.hardfork.isSome = true) :
    vmConstructor opts = Except.error VMError.legacyOptionRejected := by
  unfold vmConstructor
  rcases h with h | h <;> simp [h]

/-- A sample options record with a legacy `chain` key; it also carries
both hardfork selectors, so it shows the legacy check firing first. -/
def sampleLegacyOpts : VMOpts :=
  { chain := some 1
    hardfork := none
    common := none
    stateManager := none
    blockchain := none
    activatePrecompiles := none
    activateGenesisState := none
    hardforkByBlockNumber := some false
    hardforkByTD := some 5 }

/-- Witness for C8 at `sampleLegacyOpts`. -/
theorem legacy_option_rejected_witness :
    vmConstructor sampleLegacyOpts = Except.error VMError.legacyOptionRejected :=
  legacy_option_rejected sampleLegacyOpts (Or.inl (by decide))

/-- C4: supplying both hardfork selectors fails construction: no engine
instance is ever produced, and whenever construction reaches the selector
check — the legacy-key, EIP-support and hardfork-support checks pass — the
error thrown is the conflicting-selectors one. -/
theorem conflicting_selectors_rejected (opts : VMOpts)
    (hbn : opts.hardforkByBlockNumber.isSome = true)
    (htd : opts.hardforkByTD.isSome = true) :
    (∀ v, vmConstructor opts ≠ Except.ok v) ∧
    (opts.chain = none → opts.hardfork = none →
      findUnsupportedEIP (opts.common.getD defaultCommon).eips = none →
      (opts.common.getD defaultCommon).hardfork ∈ supportedHardforks →
      vmConstructor opts =
        Except.error VMError.conflictingHardforkSelectors) := by
  constructor
  · intro v hv
    unfold vmConstructor at hv
    split at hv
    · simp at hv
    · split at hv
      · simp at hv
      · split at hv
        · split at hv
          · simp at hv
          · rename_i hcond
            rw [hbn, htd] at hcond
            simp at hcond
        · simp at hv
  · intro hc hh heip hhf
    have heip2 : (match opts.common with
                  | some c => findUnsupportedEIP c.eips
                  | none => none) = none := by
      cases hcm : opts.common with
      | none => rfl
      | some c =>
        rw [hcm] at heip
        exact heip
    unfold vmConstructor
    rw [hc, hh]
    rw [heip2]
    simp [hhf, hbn, htd]

/-- A sample options record supplying both hardfork selectors and nothing
else. -/
def sampleConflictOpts : VMOpts :=
  { chain := none
    hardfork := none
    common := none
    stateManager := none
    blockchain := none
    activatePrecompiles := none
    activateGenesisState := none
    hardforkByBlockNumber := some true
    hardforkByTD := some 5 }

/-- Witness for C4 at `sampleConflictOpts`. -/
theorem conflicting_selectors_rejected_witness :
    (∀ v, vmConstructor sampleConflictOpts ≠ Except.ok v) ∧
    (sampleConflictOpts.chain = none → sampleConflictOpts.hardfork = none →
      findUnsupportedEIP
        (sampleConflictOpts.common.getD defaultCommon).eips = none →
      (sampleConflictOpts.common.getD defaultCommon).hardfork ∈
        supportedHardforks →
      vmConstructor sampleConflictOpts =
        Except.error VMError.conflictingHardforkSelectors) :=
  conflicting_selectors_rejected sampleConflictOpts (by decide) (by decide)

/-- C10: the selector mutual-exclusion check is presence-based, not
truth-based: a record that explicitly sets `hardforkByBlockNumber` to
`false` (its documented default) while also supplying `hardforkByTD`
still throws the conflicting-selectors error (assuming construction
reaches the selector check). -/
theorem selector_conflict_on_explicit_false (opts : VMOpts)
    (hbn : opts.hardforkByBlockNumber = some false)
    (htd : opts.hardforkByTD.isSome = true)
    (hc : opts.chain = none) (hh : opts.hardfork = none)
    (heip : findUnsupportedEIP (opts.common.getD defaultCommon).eips = none)
    (hhf : (opts.common.getD defaultCommon).hardfork ∈ supportedHardforks) :
    vmConstructor opts = Except.error VMError.conflictingHardforkSelectors := by
  have heip2 : (match opts.common with
                | some c => findUnsupportedEIP c.eips
                | none => none) = none := by
    cases hcm : opts.common with
    | none => rfl
    | some c =>
      rw [hcm] at heip
      exact heip
  unfold vmConstructor
  rw [hc, hh]
  rw [heip2]
  simp [hhf, hbn, htd]

/-- A sample options record that sets `hardforkByBlockNumber` explicitly
to `false` and also supplies `hardforkByTD`. -/
def sampleFalseSelectorOpts : VMOpts :=
  { chain := none
    hardfork := none
    common := none
    stateManager := none
    blockchain := none
    activatePrecompiles := none
    activateGenesisState := none
    hardforkByBlockNumber := some false
    hardforkByTD := some 5 }

/-- Witness for C10 at `sampleFalseSelectorOpts`. -/
theorem selector_conflict_on_explicit_false_witness :
    vmConstructor sampleFalseSelectorOpts =
      Except.error VMError.conflictingHardforkSelectors :=
  selector_conflict_on_explicit_false sampleFalseSelectorOpts rfl (by decide)
    rfl rfl (by decide) (by decide)

/-- C5: the hardfork-support check: once construction reaches it — the
legacy-key and EIP-support checks pass — construction fails with the
unsupported-rule-set error carrying the resolved tag exactly when the
resolved tag is outside `supportedHardforks`, and never throws that error
for a tag in the list. -/
theorem unsupported_rule_set_check (opts : VMOpts)
    (hc : opts.chain = none) (hh : opts.hardfork = none)
    (heip : findUnsupportedEIP (opts.common.getD defaultCommon).eips = none) :
    (¬ (opts.common.getD defaultCommon).hardfork ∈ supportedHardforks →
      vmConstructor opts =
        Except.error
          (VMError.unsupportedRuleSet
            (opts.common.getD defaultCommon).hardfork)) ∧
    ((opts.common.getD defaultCommon).hardfork ∈ supportedHardforks →
      ∀ hf, vmConstructor opts ≠
        Except.error (VMError.unsupportedRuleSet hf)) := by
  have heip2 : (match opts.common with
                | some c => findUnsupportedEIP c.eips
                | none => none) = none := by
    cases hcm : opts.common with
    | none => rfl
    | some c =>
      rw [hcm] at heip
      exact heip
  constructor
  · intro hout
    unfold vmConstructor
    rw [hc, hh]
    rw [heip2]
    simp [hout]
  · intro hin hf hv
    unfold vmConstructor at hv
    rw [hc, hh] at hv
    rw [heip2] at hv
    simp only [Option.isSome_none, Bool.or_self, Bool.false_eq_true,
      if_false] at hv
    rw [if_pos hin] at hv
    split at hv
    · simp at hv
    · simp at hv

/-! ## Lemmas on the priming loop (for C9) -/

theorem primePrecompile_checkpoints (s : StateManager) (a : Addr) :
    (primePrecompile s a).checkpoints = s.checkpoints := by
  unfold primePrecompile
  split
  · rfl
  · rfl

theorem foldl_primePrecompile_checkpoints (l : List Addr) :
    ∀ s : StateManager,
      (l.foldl primePrecompile s).checkpoints = s.checkpoints := by
  induction l with
  | nil => intro s; rfl
  | cons b rest ih =>
    intro s
    rw [List.foldl_cons, ih, primePrecompile_checkpoints]

theorem getAccount_primePrecompile_other (s : StateManager) (a b : Addr)
    (hne : ¬ a = b) :
    (primePrecompile s b).getAccount a = s.getAccount a := by
  unfold primePrecompile
  split
  · exact getAccount_putAccount_other s a b _ hne
  · rfl

theorem getAccount_primePrecompile_nonempty (s : StateManager) (a b : Addr)
    (hne : (s.getAccount a).isEmpty = false) :
    (primePrecompile s b).getAccount a = s.getAccount a := by
  by_cases hab : a = b
  · subst hab
    unfold primePrecompile
    rw [if_neg (by rw [hne]; exact Bool.false_ne_true)]
  · exact getAccount_primePrecompile_other s a b hab

theorem getAccount_foldl_nonempty (l : List Addr) (a : Addr) :
    ∀ s : StateManager, (s.getAccount a).isEmpty = false →
      (l.foldl primePrecompile s).getAccount a = s.getAccount a := by
  induction l with
  | nil => intro s _; rfl
  | cons b rest ih =>
    intro s hne
    rw [List.foldl_cons]
    rw [ih (primePrecompile s b)
      (by rw [getAccount_primePrecompile_nonempty s a b hne]; exact hne)]
    exact getAccount_primePrecompile_nonempty s a b hne

theorem fromAccountData_nonempty (r : Bytes) :
    (Account.fromAccountData r).isEmpty = false := by
  unfold Account.fromAccountData Account.isEmpty
  simp

theorem getAccount_foldl_prime (l : List Addr) (a : Addr) :
    ∀ s : StateManager, a ∈ l →
      (l.foldl primePrecompile s).getAccount a =
        (if (s.getAccount a).isEmpty then
          Account.fromAccountData (s.getAccount a).stateRoot
        else s.getAccount a) := by
  induction l with
  | nil => intro s ha; cases ha
  | cons b rest ih =>
    intro s ha
    rw [List.foldl_cons]
    by_cases hab : a = b
    · subst hab
      by_cases he : (s.getAccount a).isEmpty = true
      · have hstep : (primePrecompile s a).getAccount a =
            Account.fromAccountData (s.getAccount a).stateRoot := by
          unfold primePrecompile
          rw [if_pos he]
          exact getAccount_putAccount_self s a _
        rw [getAccount_foldl_nonempty rest a (primePrecompile s a)
          (by rw [hstep]; exact fromAccountData_nonempty _), hstep, if_pos he]
      · have he' : (s.getAccount a).isEmpty = false := by
          simpa using he
        have hstep : primePrecompile s a = s := by
          unfold primePrecompile
          rw [if_neg he]
        rw [hstep, getAccount_foldl_nonempty rest a s he', if_neg he]
    · have hmem : a ∈ rest := by
        rcases List.mem_cons.mp ha with h | h
        · exact absurd h hab
        · exact h
      rw [ih (primePrecompile s b) hmem,
        getAccount_primePrecompile_other s a b hab]

/-- C9: precompile priming is frame-bounded to empty accounts: when `init`
runs with `activatePrecompiles` truthy and no external state store (and
genesis materialization off, so the prior state is the state priming
sees), every precompile address whose account was non-empty keeps that
account completely unchanged, every precompile account that was empty ends
as the balance-1 account with its prior storage root, and the checkpoint
stack is exactly restored — the priming writes sit inside one balanced
checkpoint/commit pair. -/
theorem precompile_priming_frame_bounded (g : List (Addr × Account))
    (p : List Addr) (v : VM)
    (hini : v.isInitialized = false)
    (hsm : v.opts.stateManager = none)
    (hap : v.opts.activatePrecompiles.getD false = true)
    (hag : v.opts.activateGenesisState.getD false = false) :
    (∀ a ∈ p,
      (vmInit g p v).stateManager.getAccount a =
        (if (v.stateManager.getAccount a).isEmpty then
          Account.fromAccountData (v.stateManager.getAccount a).stateRoot
        else v.stateManager.getAccount a)) ∧
    (vmInit g p v).stateManager.checkpoints =
      v.stateManager.checkpoints := by
  have hsm2 : (vmInit g p v).stateManager =
      activatePrecompilesOnState p v.stateManager := by
    unfold vmInit
    simp [hini, hsm, hap, hag]
  constructor
  · intro a ha
    rw [hsm2]
    unfold activatePrecompilesOnState
    rw [getAccount_commit]
    rw [getAccount_foldl_prime p a v.stateManager.checkpoint ha]
    rw [getAccount_checkpoint]
  · rw [hsm2]
    unfold activatePrecompilesOnState
    show ((p.foldl primePrecompile
      v.stateManager.checkpoint).commit).checkpoints = _
    unfold StateManager.commit
    rw [foldl_primePrecompile_checkpoints p v.stateManager.checkpoint]
    rfl

/-- A sample engine on which priming runs: no external store, priming
asked for, one non-empty account at address `[1]`. -/
def samplePrimingVM : VM :=
  { opts :=
      { chain := none
        hardfork := none
        common := none
        stateManager := none
        blockchain := none
        activatePrecompiles := some true
        activateGenesisState := none
        hardforkByBlockNumber := none
        hardforkByTD := none }
    common := defaultCommon
    stateManager := sampleStore
    blockchain := { inited := false, store := [] }
    hardforkByBlockNumber := false
    hardforkByTD := none
    isInitialized := false }

/-- Witness for C9 at `samplePrimingVM`, priming the two addresses `[1]`
(already non-empty) and `[2]` (absent, hence empty). -/
theorem precompile_priming_frame_bounded_witness :
    (∀ a ∈ [[1], [2]],
      (vmInit [] [[1], [2]] samplePrimingVM).stateManager.getAccount a =
        (if (samplePrimingVM.stateManager.getAccount a).isEmpty then
          Account.fromAccountData
            (samplePrimingVM.stateManager.getAccount a).stateRoot
        else samplePrimingVM.stateManager.getAccount a)) ∧
    (vmInit [] [[1], [2]] samplePrimingVM).stateManager.checkpoints =
      samplePrimingVM.stateManager.checkpoints :=
  precompile_priming_frame_bounded [] [[1], [2]] samplePrimingVM rfl rfl
    (by decide) (by decide)

/-- A sample options record whose `Common` resolves to a tag outside the
declared support list. -/
def sampleGrayGlacierOpts : VMOpts :=
  { chain := none
    hardfork := none
    common := some { eips := [1559], hardfork := Hardfork.grayGlacier }
    stateManager := none
    blockchain := none
    activatePrecompiles := none
    activateGenesisState := none
    hardforkByBlockNumber := none
    hardforkByTD := none }

theorem initStore_of_inited (b : Blockchain) (h : b.inited = true) :
    b.initStore = b := by
  cases b with
  | mk i s =>
    cases h
    rfl

/-- C7: for an initialized engine, `copy` succeeds and returns a new
engine bound to clones — obtained via the respective `copy` operations —
of the state store, the block store and the chain parameters, so both
engines hold the same current contents and roots. (Stores are plain
values in this model, so the clones the new engine holds cannot alias the
originals.) -/
theorem copy_clones_stores (g : List (Addr × Account)) (p : List Addr)
    (v : VM)
    (heip : findUnsupportedEIP v.common.eips = none)
    (hhf : v.common.hardfork ∈ supportedHardforks)
    (_hinit : v.isInitialized = true)
    (hbc : v.blockchain.inited = true) :
    ∃ w, vmCopy g p v = Except.ok w ∧
      w.stateManager = v.stateManager.copy ∧
      w.blockchain = v.blockchain.copy ∧
      w.common = v.common.copy := by
  have hcons : vmConstructor (copyOpts v) = Except.ok
      { opts := copyOpts v
        common := v.common
        stateManager := v.stateManager
        blockchain := v.blockchain
        hardforkByBlockNumber := false
        hardforkByTD := none
        isInitialized := false } := by
    unfold vmConstructor copyOpts
    simp [heip, hhf, StateManager.copy, Blockchain.copy, Common.copy]
  have hini : vmInit g p
      { opts := copyOpts v
        common := v.common
        stateManager := v.stateManager
        blockchain := v.blockchain
        hardforkByBlockNumber := false
        hardforkByTD := none
        isInitialized := false } =
      { opts := copyOpts v
        common := v.common
        stateManager := v.stateManager
        blockchain := v.blockchain
        hardforkByBlockNumber := false
        hardforkByTD := none
        isInitialized := true } := by
    unfold vmInit
    simp [copyOpts, initStore_of_inited v.blockchain hbc]
  refine ⟨{ opts := copyOpts v
            common := v.common
            stateManager := v.stateManager
            blockchain := v.blockchain
            hardforkByBlockNumber := false
            hardforkByTD := none
            isInitialized := true }, ?_, rfl, rfl, rfl⟩
  unfold vmCopy vmCreate
  rw [hcons]
  simp only [Except.map]
  rw [hini]

/-- A sample engine as produced by a successful construction followed by
`init`, used by the C7 witness. -/
def sampleInitializedVM : VM :=
  { opts :=
      { chain := none
        hardfork := none
        common := none
        stateManager := none
        blockchain := none
        activatePrecompiles := none
        activateGenesisState := none
        hardforkByBlockNumber := none
        hardforkByTD := none }
    common := defaultCommon
    stateManager := sampleStore
    blockchain := { inited := true, store := [(0, [9])] }
    hardforkByBlockNumber := false
    hardforkByTD := none
    isInitialized := true }

/-- Witness for C7 at `sampleInitializedVM`. -/
theorem copy_clones_stores_witness :
    ∃ w, vmCopy [] [] sampleInitializedVM = Except.ok w ∧
      w.stateManager = sampleInitializedVM.stateManager.copy ∧
      w.blockchain = sampleInitializedVM.blockchain.copy ∧
      w.common = sampleInitializedVM.common.copy :=
  copy_clones_stores [] [] sampleInitializedVM (by decide) (by decide) rfl rfl

/-- Witness for C5 at `sampleGrayGlacierOpts`. -/
theorem unsupported_rule_set_check_witness :
    (¬ (sampleGrayGlacierOpts.common.getD defaultCommon).hardfork ∈
        supportedHardforks →
      vmConstructor sampleGrayGlacierOpts =
        Except.error
          (VMError.unsupportedRuleSet
            (sampleGrayGlacierOpts.common.getD defaultCommon).hardfork)) ∧
    ((sampleGrayGlacierOpts.common.getD defaultCommon).hardfork ∈
        supportedHardforks →
      ∀ hf, vmConstructor sampleGrayGlacierOpts ≠
        Except.error (VMError.unsupportedRuleSet hf)) :=
  unsupported_rule_set_check sampleGrayGlacierOpts rfl rfl (by decide)

end EthVM
